import Mathlib

/-!
# Verification of the weather-chatbot extraction logic

A shallow embedding of `streamlit_app.py`. The bespoke logic of the
repository is `get_weather_serp`: one HTTP call followed by defensive
extraction of a forecast string from a loosely structured JSON search
response, plus the UI trigger condition in `main`.

The embedding models:

* JSON values (`Json`) as produced by `response.json()` / `json.loads`.
  Numbers are modelled as integers; the claims under study never touch
  numeric values.  Python dicts are modelled as association lists
  (first binding wins on lookup).
* `json.dumps(x, indent=2)` (`json_dumps`) and `json.loads`
  (`json_loads`).  String escaping is modelled for the quote,
  backslash, newline, tab and carriage-return characters; `json.dumps`
  additionally `\u`-escapes other control and non-ASCII characters,
  which does not affect the structure-round-trip property studied here.
* The dynamic (Python) semantics of the operations the source uses on
  untyped JSON values: the `in` operator (`pyIn`), subscription by a
  string key (`getKey`) and by index 0 (`index0`), truthiness
  (`truthy`), and `" ".join` (`joinStrs`/`spaceJoin`).  Operations that
  raise in Python are modelled with `Except String`, the error string
  being the Python exception class name.
* `get_weather_serp` itself, taking the provider's `HttpResponse`
  (status code and raw body).  The outbound request construction (query
  parameters, credentials) has no bearing on any claim and is not
  modelled.  A `.ok` result is the value the Python function returns;
  a `.error` result is an uncaught Python exception.
-/

/-! ## Characters and whitespace -/

/-- JSON insignificant whitespace, as skipped by a JSON parser. -/
def wsChar (c : Char) : Bool := c == '\n' || c == ' ' || c == '\r' || c == '\t'

/-- ASCII decimal digit test (by code point, `'0'`..`'9'`). -/
def isDigitC (c : Char) : Bool := 48 ≤ c.toNat && c.toNat ≤ 57

/-- Numeric value of an ASCII digit character. -/
def digitVal (c : Char) : Nat := c.toNat - 48

/-- Drop leading whitespace. -/
def dropWs : List Char → List Char
  | [] => []
  | c :: cs => if wsChar c then dropWs cs else c :: cs

/-- All characters of the list are whitespace. -/
def onlyWs : List Char → Bool
  | [] => true
  | c :: cs => wsChar c && onlyWs cs

/-- `n` space characters. -/
def spaces (n : Nat) : List Char := List.replicate n ' '

/-- Newline followed by `n` spaces: the separator `json.dumps(_, indent=2)`
emits before an element at indentation level `n`. -/
def wsNl (n : Nat) : List Char := '\n' :: spaces n

/-! ## Substring containment (Python's `in` on strings) -/

/-- `listPre p l`: `p` is a prefix of `l`. -/
def listPre : List Char → List Char → Bool
  | [], _ => true
  | _ :: _, [] => false
  | p :: ps, c :: cs => p == c && listPre ps cs

/-- `listSub p l`: `p` occurs contiguously inside `l`. -/
def listSub (pat : List Char) : List Char → Bool
  | [] => listPre pat []
  | c :: cs => listPre pat (c :: cs) || listSub pat cs

/-- Python `pat in hay` for strings: contiguous substring test. -/
def strContains (hay pat : String) : Bool := listSub pat.data hay.data

/-- The Fahrenheit marker `"°F"` tested by the source. -/
def fahr : String := "°F"

/-! ## The JSON data model -/

/-- A parsed JSON value, as returned by `response.json()`.  Numbers are
modelled as integers. -/
inductive Json where
  | null : Json
  | bool : Bool → Json
  | num : Int → Json
  | str : String → Json
  | arr : List Json → Json
  | obj : List (String × Json) → Json

/-! Node-count measure used for parser fuel and termination. -/

mutual

def jsize : Json → Nat
  | .arr l => 1 + lsize l
  | .obj l => 1 + osize l
  | .str _ => 1
  | .null => 1
  | .num _ => 1
  | .bool _ => 1

def lsize : List Json → Nat
  | [] => 1
  | j :: js => 1 + jsize j + lsize js

def osize : List (String × Json) → Nat
  | [] => 1
  | (_, j) :: fs => 1 + jsize j + osize fs

end

/-! ## Serialization: `json.dumps(result_json, indent=2)` -/

/-- Escape one character inside a JSON string literal. -/
def escChar (c : Char) : List Char :=
  if c == '\\' then ['\\', '\\']
  else if c == '"' then ['\\', '"']
  else if c == '\n' then ['\\', 'n']
  else if c == '\r' then ['\\', 'r']
  else if c == '\t' then ['\\', 't']
  else [c]

/-- Escape the body of a JSON string literal. -/
def escape : List Char → List Char
  | [] => []
  | c :: cs => escChar c ++ escape cs

/-- A JSON string token: quote, escaped body, quote. -/
def serStr (s : String) : List Char := '"' :: (escape s.data ++ ['"'])

/-- Decimal digits of a natural number. -/
def natToChars (n : Nat) : List Char :=
  if n = 0 then ['0'] else ((Nat.digits 10 n).map Nat.digitChar).reverse

/-- Minimal decimal rendering of an integer, as Python prints `int`. -/
def serInt : Int → List Char
  | .ofNat n => natToChars n
  | .negSucc m => '-' :: natToChars (m + 1)

/-! `serVal` is `json.dumps(_, indent=2)` at indentation level `ind`; it
mirrors Python's layout: containers open, put each item on its own line
indented two further, separate items with a comma, and close on a fresh
line at the enclosing indentation.  Empty containers print inline. -/

mutual

def serVal (ind : Nat) : Json → List Char
  | .null => ("null").data
  | .bool true => ("true").data
  | .bool false => ("false").data
  | .num n => serInt n
  | .str s => serStr s
  | .arr [] => ['[', ']']
  | .arr (j :: js) =>
      '[' :: (wsNl (ind + 2) ++ serVal (ind + 2) j ++ serArrRest (ind + 2) js
        ++ wsNl ind ++ [']'])
  | .obj [] => ['{', '}']
  | .obj ((k, v) :: fs) =>
      '{' :: (wsNl (ind + 2) ++ serStr k ++ ':' :: ' ' :: serVal (ind + 2) v
        ++ serObjRest (ind + 2) fs ++ wsNl ind ++ ['}'])

def serArrRest (ind : Nat) : List Json → List Char
  | [] => []
  | j :: js => ',' :: (wsNl ind ++ serVal ind j ++ serArrRest ind js)

def serObjRest (ind : Nat) : List (String × Json) → List Char
  | [] => []
  | (k, v) :: fs =>
      ',' :: (wsNl ind ++ serStr k ++ ':' :: ' ' :: serVal ind v ++ serObjRest ind fs)

end

/-- `json.dumps(j, indent=2)`. -/
def json_dumps (j : Json) : String := String.mk (serVal 0 j)

/-! ## Parsing: `json.loads` / `response.json()` -/

/-- Inverse of `escChar` for the escape letter following a backslash. -/
def unescChar (c : Char) : Option Char :=
  if c == 't' then some '\t'
  else if c == 'n' then some '\n'
  else if c == '"' then some '"'
  else if c == '/' then some '/'
  else if c == 'r' then some '\r'
  else if c == '\\' then some '\\'
  else none

/-- Parse the body of a JSON string literal after the opening quote,
returning the decoded characters and the input after the closing quote. -/
def readStrBody : List Char → Option (List Char × List Char)
  | [] => none
  | c :: cs =>
    if c == '"' then some ([], cs)
    else if c == '\\' then
      match cs with
      | [] => none
      | e :: cs2 =>
        match unescChar e, readStrBody cs2 with
        | some c2, some p => some (c2 :: p.1, p.2)
        | _, _ => none
    else
      match readStrBody cs with
      | some p => some (c :: p.1, p.2)
      | none => none

/-- Parse a maximal nonempty run of decimal digits. -/
def readNatTok (cs : List Char) : Option (Nat × List Char) :=
  let ds := cs.takeWhile isDigitC
  if ds.isEmpty then none
  else some (ds.foldl (fun a c => a * 10 + digitVal c) 0, cs.dropWhile isDigitC)

/-! A recursive-descent JSON parser with fuel; `readVal` parses one
value after optional whitespace, `readItems` the comma-separated items
of a non-empty array up to `]`, `readFields` the fields of a non-empty
object up to `}`. -/

mutual

def readVal : Nat → List Char → Option (Json × List Char)
  | 0, _ => none
  | fuel + 1, cs =>
    match dropWs cs with
    | [] => none
    | c :: r =>
      if isDigitC c then
        match readNatTok (c :: r) with
        | some p => some (.num (Int.ofNat p.1), p.2)
        | none => none
      else if c == '-' then
        match readNatTok r with
        | some p => some (.num (-(Int.ofNat p.1)), p.2)
        | none => none
      else if c == '"' then
        match readStrBody r with
        | some p => some (.str (String.mk p.1), p.2)
        | none => none
      else if c == '[' then
        match dropWs r with
        | [] => none
        | c1 :: t1 =>
          if c1 == ']' then some (.arr [], t1)
          else
            match readItems fuel (c1 :: t1) with
            | some p => some (.arr p.1, p.2)
            | none => none
      else if c == '{' then
        match dropWs r with
        | [] => none
        | c1 :: t1 =>
          if c1 == '}' then some (.obj [], t1)
          else
            match readFields fuel (c1 :: t1) with
            | some p => some (.obj p.1, p.2)
            | none => none
      else if c == 'n' then
        match r with
        | 'u' :: 'l' :: 'l' :: r2 => some (.null, r2)
        | _ => none
      else if c == 't' then
        match r with
        | 'r' :: 'u' :: 'e' :: r2 => some (.bool true, r2)
        | _ => none
      else if c == 'f' then
        match r with
        | 'a' :: 'l' :: 's' :: 'e' :: r2 => some (.bool false, r2)
        | _ => none
      else none

def readItems : Nat → List Char → Option (List Json × List Char)
  | 0, _ => none
  | fuel + 1, cs =>
    match readVal fuel cs with
    | none => none
    | some p =>
      match dropWs p.2 with
      | [] => none
      | c2 :: cs2 =>
        if c2 == ',' then
          match readItems fuel cs2 with
          | some q => some (p.1 :: q.1, q.2)
          | none => none
        else if c2 == ']' then some ([p.1], cs2)
        else none

def readFields : Nat → List Char → Option (List (String × Json) × List Char)
  | 0, _ => none
  | fuel + 1, cs =>
    match dropWs cs with
    | [] => none
    | c0 :: cs1 =>
      if c0 == '"' then
        match readStrBody cs1 with
        | none => none
        | some kp =>
          match dropWs kp.2 with
          | [] => none
          | c1 :: cs3 =>
            if c1 == ':' then
              match readVal fuel cs3 with
              | none => none
              | some vp =>
                match dropWs vp.2 with
                | [] => none
                | c2 :: cs5 =>
                  if c2 == ',' then
                    match readFields fuel cs5 with
                    | some q => some ((String.mk kp.1, vp.1) :: q.1, q.2)
                    | none => none
                  else if c2 == '}' then some ([(String.mk kp.1, vp.1)], cs5)
                  else none
            else none
      else none

end

/-- `json.loads`: parse a complete JSON document (the fuel
`length + 1` dominates the node count of any value the input can
denote).  Trailing whitespace is tolerated; anything else trailing is a
parse failure. -/
def json_loads (s : String) : Option Json :=
  match readVal (s.data.length + 1) s.data with
  | some (j, r) => if (dropWs r).isEmpty then some j else none
  | none => none

/-! ## Python dynamic semantics on JSON values

Errors carry the Python exception class name that the corresponding
operation raises. -/

/-- Python truthiness of a JSON value. -/
def truthy : Json → Bool
  | .null => false
  | .bool b => b
  | .num n => !(n == 0)
  | .str s => !(s == "")
  | .arr l => !l.isEmpty
  | .obj l => !l.isEmpty

/-- Python `key in x` for a string `key`: key membership for dicts,
element equality for lists, substring test for strings, `TypeError`
otherwise. -/
def pyIn (key : String) : Json → Except String Bool
  | .obj fields => .ok (fields.any fun f => f.1 == key)
  | .arr elems =>
      .ok (elems.any fun e =>
        match e with
        | .str s => s == key
        | _ => false)
  | .str s => .ok (strContains s key)
  | _ => .error "TypeError"

/-- Python `x[key]` for a string `key`: dict lookup (`KeyError` when
missing), `TypeError` on any non-dict. -/
def getKey (key : String) : Json → Except String Json
  | .obj fields =>
    match fields.find? (fun f => f.1 == key) with
    | some f => .ok f.2
    | none => .error "KeyError"
  | _ => .error "TypeError"

/-- Python `x[0]`: first element of a list, first character of a string
(as a one-character string), `KeyError` on a dict (JSON object keys are
strings, so the integer key `0` is absent), `TypeError` otherwise. -/
def index0 : Json → Except String Json
  | .arr [] => .error "IndexError"
  | .arr (x :: _) => .ok x
  | .str s =>
    match s.data with
    | [] => .error "IndexError"
    | c :: _ => .ok (.str (String.mk [c]))
  | .obj _ => .error "KeyError"
  | _ => .error "TypeError"

/-- The string elements of a list, or `none` when some element is not a
string — the case in which Python's `" ".join` raises `TypeError`. -/
def joinStrs : List Json → Option (List String)
  | [] => some []
  | .str s :: rest =>
    match joinStrs rest with
    | some l => some (s :: l)
    | none => none
  | _ => none

/-- `" ".join` on a list of strings. -/
def spaceJoin (l : List String) : String := String.intercalate " " l

/-! ## `get_weather_serp` (src/streamlit_app.py lines 14-49) -/

/-- Lines 34-40: the rich-snippet extensions branch applied to
`first_result`.  `.ok (some t)` models `return detailed_forecast`,
`.ok none` models falling through to the snippet branch, `.error`
models an uncaught exception. -/
def richPath (first_result : Json) : Except String (Option String) :=
  match pyIn "rich_snippet" first_result with
  | .error e => .error e
  | .ok false => .ok none
  | .ok true =>
    match getKey "rich_snippet" first_result with
    | .error e => .error e
    | .ok rs =>
      match pyIn "top" rs with
      | .error e => .error e
      | .ok false => .ok none
      | .ok true =>
        match getKey "top" rs with
        | .error e => .error e
        | .ok top_info =>
          match pyIn "extensions" top_info with
          | .error e => .error e
          | .ok false => .ok none
          | .ok true =>
            match getKey "extensions" top_info with
            | .error e => .error e
            | .ok ext =>
              match ext with
              | .arr elems =>
                match joinStrs elems with
                | none => .error "TypeError"
                | some ss =>
                  if strContains (spaceJoin ss) fahr then .ok (some (spaceJoin ss))
                  else .ok none
              | _ => .ok none

/-- Lines 42-45 plus the fall-through to line 47: the snippet branch
applied to `first_result`; when it does not return, the full response is
dumped.  Note the source returns `first_result["snippet"]` unchanged,
whatever its type. -/
def snipPath (first_result result_json : Json) : Except String Json :=
  match pyIn "snippet" first_result with
  | .error e => .error e
  | .ok false => .ok (.str (json_dumps result_json))
  | .ok true =>
    match getKey "snippet" first_result with
    | .error e => .error e
    | .ok sn =>
      match pyIn fahr sn with
      | .error e => .error e
      | .ok true => .ok sn
      | .ok false => .ok (.str (json_dumps result_json))

/-- Lines 34-47 for a chosen `first_result`: rich-snippet branch first,
then snippet branch, then the dump fallback. -/
def afterFirst (first_result result_json : Json) : Except String Json :=
  match richPath first_result with
  | .error e => .error e
  | .ok (some t) => .ok (.str t)
  | .ok none => snipPath first_result result_json

/-- Lines 31-47: the whole extraction applied to the parsed body. -/
def extract (result_json : Json) : Except String Json :=
  match pyIn "organic_results" result_json with
  | .error e => .error e
  | .ok false => .ok (.str (json_dumps result_json))
  | .ok true =>
    match getKey "organic_results" result_json with
    | .error e => .error e
    | .ok org =>
      if truthy org then
        match index0 org with
        | .error e => .error e
        | .ok first_result => afterFirst first_result result_json
      else .ok (.str (json_dumps result_json))

/-- The provider's reply as seen by `get_weather_serp`: HTTP status code
and raw body text. -/
structure HttpResponse where
  status_code : Nat
  body : String

/-- Line 49: the error text for a non-200 status. -/
def errMsg (code : Nat) : String :=
  "Error: Unable to fetch data from SERP API, status code: " ++ Nat.repr code

/-- `get_weather_serp` on a provider reply.  On status 200 the body is
parsed (`response.json()`; a parse failure raises `JSONDecodeError`,
uncaught in the source) and the extraction runs; otherwise the error
text embedding the status code is returned without touching the body. -/
def get_weather_serp (resp : HttpResponse) : Except String Json :=
  if resp.status_code = 200 then
    match json_loads resp.body with
    | some result_json => extract result_json
    | none => .error "JSONDecodeError"
  else .ok (.str (errMsg resp.status_code))

/-! ## The UI trigger (src/streamlit_app.py lines 96-100) -/

/-- Lines 97-99: `agent.run(user_query)` is invoked only when the button
was pressed and the entered text is truthy (non-empty); `none` models
"no call issued". -/
def mainRuns (button_pressed : Bool) (user_query : String)
    (agentRun : String → String) : Option String :=
  if button_pressed && !(user_query == "") then some (agentRun user_query) else none

/-! ## Spec-side path selectors (for the precedence claim)

These re-state, independently of `extract`'s control flow, which
`first_result` the extraction inspects; they are used to express that
every successful output of `extract` is traceable to exactly one source
with the extensions path preferred over the snippet path over the dump. -/

/-- The first organic result the source inspects, when lines 31-32
reach it without an exception. -/
def firstRes (result_json : Json) : Option Json :=
  match pyIn "organic_results" result_json with
  | .ok true =>
    match getKey "organic_results" result_json with
    | .ok org =>
      if truthy org then
        match index0 org with
        | .ok fr => some fr
        | .error _ => none
      else none
    | .error _ => none
  | _ => none

/-- A context that cannot extend a decimal literal: empty, or starting
with a non-digit.  Any continuation the serializer places after a number
(`,`, a newline, `]`, `}`, or nothing) satisfies this. -/
def restOk : List Char → Bool
  | [] => true
  | c :: _ => !(isDigitC c)

/-! # Proofs -/

/-! ## Whitespace and digit characters -/

theorem dropWs_cons_not (c : Char) (cs : List Char) (h : wsChar c = false) :
    dropWs (c :: cs) = c :: cs := by
  simp [dropWs, h]

theorem dropWs_append_ws (ws cs : List Char) (h : onlyWs ws = true) :
    dropWs (ws ++ cs) = dropWs cs := by
  induction ws with
  | nil => rfl
  | cons c t ih =>
    simp only [onlyWs, Bool.and_eq_true] at h
    simp [dropWs, h.1, ih h.2]

theorem onlyWs_spaces (n : Nat) : onlyWs (spaces n) = true := by
  induction n with
  | zero => rfl
  | succ m ih =>
    have h : spaces (m + 1) = ' ' :: spaces m := by
      simp [spaces, List.replicate_succ]
    rw [h]
    simp [onlyWs, wsChar, ih]

theorem onlyWs_wsNl (n : Nat) : onlyWs (wsNl n) = true := by
  have h : wsChar '\n' = true := rfl
  simp [wsNl, onlyWs, h, onlyWs_spaces]

theorem wsChar_cases (c : Char) (h : wsChar c = true) :
    c = ' ' ∨ c = '\n' ∨ c = '\t' ∨ c = '\r' := by
  simp [wsChar] at h
  tauto

theorem ws_not_digit (c : Char) (h : wsChar c = true) : isDigitC c = false := by
  rcases wsChar_cases c h with h' | h' | h' | h' <;> subst h' <;> rfl

theorem digit_beq_false (c d : Char) (h : isDigitC c = true)
    (hd : isDigitC d = false) : (c == d) = false := by
  by_cases he : c = d
  · subst he; rw [h] at hd; exact Bool.noConfusion hd
  · simp [he]

theorem digit_not_ws (c : Char) (h : isDigitC c = true) : wsChar c = false := by
  simp [wsChar, digit_beq_false c ' ' h rfl, digit_beq_false c '\n' h rfl,
    digit_beq_false c '\t' h rfl, digit_beq_false c '\r' h rfl]

theorem restOk_ws_append (ws tail : List Char) (h : onlyWs ws = true)
    (ht : restOk tail = true) : restOk (ws ++ tail) = true := by
  cases ws with
  | nil => simpa using ht
  | cons c t =>
    simp only [onlyWs, Bool.and_eq_true] at h
    simp [restOk, ws_not_digit c h.1]

/-! ## Substring containment -/

theorem listPre_refl (l : List Char) : listPre l l = true := by
  induction l with
  | nil => rfl
  | cons c t ih => simp [listPre, ih]

theorem listSub_suffix (pat pre : List Char) :
    listSub pat (pre ++ pat) = true := by
  induction pre with
  | nil =>
    cases hp : pat with
    | nil => simp [listSub, listPre]
    | cons c t =>
      rw [← hp]
      simp only [List.nil_append]
      rw [hp]
      simp [listSub, ← hp, listPre_refl]
  | cons c t ih =>
    simp [listSub, ih]

theorem strContains_append (pre pat : String) :
    strContains (pre ++ pat) pat = true := by
  have h : (pre ++ pat).data = pre.data ++ pat.data := String.data_append pre pat
  simp [strContains, h, listSub_suffix]

/-! ## String-literal escaping round trip -/

theorem readStrBody_escape (s r : List Char) :
    readStrBody (escape s ++ '"' :: r) = some (s, r) := by
  induction s with
  | nil =>
    show readStrBody ('"' :: r) = some ([], r)
    rw [readStrBody.eq_def]
    simp
  | cons c cs ih =>
    show readStrBody ((escChar c ++ escape cs) ++ '"' :: r) = _
    rw [List.append_assoc]
    by_cases h1 : c = '"'
    · subst h1
      show readStrBody ('\\' :: '"' :: (escape cs ++ '"' :: r)) = _
      rw [readStrBody.eq_def]
      simp only [unescChar]
      simp [ih]
    · by_cases h2 : c = '\\'
      · subst h2
        show readStrBody ('\\' :: '\\' :: (escape cs ++ '"' :: r)) = _
        rw [readStrBody.eq_def]
        simp only [unescChar]
        simp [ih]
      · by_cases h3 : c = '\n'
        · subst h3
          show readStrBody ('\\' :: 'n' :: (escape cs ++ '"' :: r)) = _
          rw [readStrBody.eq_def]
          simp only [unescChar]
          simp [ih]
        · by_cases h4 : c = '\t'
          · subst h4
            show readStrBody ('\\' :: 't' :: (escape cs ++ '"' :: r)) = _
            rw [readStrBody.eq_def]
            simp only [unescChar]
            simp [ih]
          · by_cases h5 : c = '\r'
            · subst h5
              show readStrBody ('\\' :: 'r' :: (escape cs ++ '"' :: r)) = _
              rw [readStrBody.eq_def]
              simp only [unescChar]
              simp [ih]
            · have he : escChar c = [c] := by simp [escChar, h1, h2, h3, h4, h5]
              rw [he]
              show readStrBody (c :: (escape cs ++ '"' :: r)) = _
              rw [readStrBody.eq_def]
              simp [h1, h2, ih]

/-! ## Decimal literal round trip -/

theorem natToChars_ne_nil (n : Nat) : natToChars n ≠ [] := by
  by_cases h : n = 0
  · subst h; simp [natToChars]
  · simp [natToChars, h, Nat.digits_eq_nil_iff_eq_zero]

theorem digitChar_isDigitC (d : Nat) (h : d < 10) :
    isDigitC (Nat.digitChar d) = true := by
  interval_cases d <;> rfl

theorem natToChars_digits (n : Nat) :
    ∀ c ∈ natToChars n, isDigitC c = true := by
  intro c hc
  by_cases h : n = 0
  · subst h
    simp [natToChars] at hc
    subst hc; rfl
  · simp only [natToChars, h, if_false, List.mem_reverse, List.mem_map] at hc
    obtain ⟨d, hd, rfl⟩ := hc
    exact digitChar_isDigitC d (Nat.digits_lt_base (by norm_num) hd)

theorem takeWhile_all_append (p : Char → Bool) (l r : List Char)
    (h : ∀ c ∈ l, p c = true) :
    (l ++ r).takeWhile p = l ++ r.takeWhile p ∧
      (l ++ r).dropWhile p = r.dropWhile p := by
  induction l with
  | nil => simp
  | cons c t ih =>
    have hc := h c (List.mem_cons_self c t)
    have iht := ih fun x hx => h x (List.mem_cons_of_mem c hx)
    simp [List.takeWhile, List.dropWhile, hc, iht.1, iht.2]

theorem restOk_takeWhile (r : List Char) (h : restOk r = true) :
    r.takeWhile isDigitC = [] ∧ r.dropWhile isDigitC = r := by
  cases r with
  | nil => simp
  | cons c t =>
    simp only [restOk, Bool.not_eq_true'] at h
    simp [List.takeWhile, List.dropWhile, h]

theorem digitVal_digitChar (d : Nat) (h : d < 10) :
    digitVal (Nat.digitChar d) = d := by
  interval_cases d <;> rfl

theorem foldr_ofDigits (l : List Nat) (h : ∀ d ∈ l, d < 10) :
    l.foldr (fun d a => a * 10 + digitVal (Nat.digitChar d)) 0 =
      Nat.ofDigits 10 l := by
  induction l with
  | nil => simp [Nat.ofDigits]
  | cons d ds ih =>
    have hd := h d (List.mem_cons_self d ds)
    have hds := ih fun x hx => h x (List.mem_cons_of_mem d hx)
    simp only [List.foldr, hds, digitVal_digitChar d hd, Nat.ofDigits_cons]
    ring

theorem foldl_natToChars (n : Nat) :
    (natToChars n).foldl (fun a c => a * 10 + digitVal c) 0 = n := by
  by_cases h : n = 0
  · subst h; rfl
  · rw [natToChars, if_neg h, List.foldl_reverse, List.foldr_map]
    calc (Nat.digits 10 n).foldr (fun d a => a * 10 + digitVal (Nat.digitChar d)) 0
        = Nat.ofDigits 10 (Nat.digits 10 n) :=
          foldr_ofDigits _ fun d hd => Nat.digits_lt_base (by norm_num) hd
      _ = n := Nat.ofDigits_digits 10 n

theorem readNatTok_natToChars (n : Nat) (rest : List Char)
    (h : restOk rest = true) :
    readNatTok (natToChars n ++ rest) = some (n, rest) := by
  have hsplit := takeWhile_all_append isDigitC (natToChars n) rest (natToChars_digits n)
  have hrest := restOk_takeWhile rest h
  have hne : (natToChars n ++ []).isEmpty = false := by
    rw [List.append_nil]
    cases hcc : natToChars n with
    | nil => exact absurd hcc (natToChars_ne_nil n)
    | cons a b => rfl
  unfold readNatTok
  rw [hsplit.1, hrest.1, hsplit.2, hrest.2]
  simp only [hne, Bool.false_eq_true, if_false]
  rw [List.append_nil, foldl_natToChars]

/-! ## Sizes -/

theorem jsize_pos (j : Json) : 1 ≤ jsize j := by
  cases j <;> simp [jsize]

theorem lsize_pos (l : List Json) : 1 ≤ lsize l := by
  cases l with
  | nil => simp [lsize]
  | cons j js => simp only [lsize]; omega

theorem osize_pos (l : List (String × Json)) : 1 ≤ osize l := by
  cases l with
  | nil => simp [osize]
  | cons f fs => obtain ⟨k, v⟩ := f; simp only [osize]; omega

/-! ## Heads of serialized values -/

theorem serVal_head (ind : Nat) (j : Json) :
    ∃ c t, serVal ind j = c :: t ∧ wsChar c = false ∧
      (c == ']') = false ∧ (c == '}') = false := by
  cases j with
  | null => exact ⟨'n', _, rfl, rfl, rfl, rfl⟩
  | bool b => cases b with
    | true => exact ⟨'t', _, rfl, rfl, rfl, rfl⟩
    | false => exact ⟨'f', _, rfl, rfl, rfl, rfl⟩
  | num n =>
    have key : ∀ m : Nat, ∃ c t, natToChars m = c :: t ∧ wsChar c = false ∧
        (c == ']') = false ∧ (c == '}') = false := by
      intro m
      cases hm : natToChars m with
      | nil => exact absurd hm (natToChars_ne_nil m)
      | cons c t =>
        have hc : isDigitC c = true := by
          apply natToChars_digits m
          rw [hm]; exact List.mem_cons_self c t
        exact ⟨c, t, rfl, digit_not_ws c hc, digit_beq_false c ']' hc rfl,
          digit_beq_false c '}' hc rfl⟩
    cases n with
    | ofNat m =>
      obtain ⟨c, t, h1, h2, h3, h4⟩ := key m
      exact ⟨c, t, by simp [serVal, serInt, h1], h2, h3, h4⟩
    | negSucc m => exact ⟨'-', natToChars (m + 1), rfl, rfl, rfl, rfl⟩
  | str s => exact ⟨'"', escape s.data ++ ['"'], rfl, rfl, rfl, rfl⟩
  | arr l => cases l with
    | nil => exact ⟨'[', _, rfl, rfl, rfl, rfl⟩
    | cons x xs => exact ⟨'[', _, rfl, rfl, rfl, rfl⟩
  | obj l => cases l with
    | nil => exact ⟨'{', _, rfl, rfl, rfl, rfl⟩
    | cons f fs => obtain ⟨k, v⟩ := f; exact ⟨'{', _, rfl, rfl, rfl, rfl⟩

/-! ## Evaluation steps of `readVal` on each leading token -/

theorem pv_ws (f : Nat) (ws cs : List Char) (h : onlyWs ws = true) :
    readVal (f + 1) (ws ++ cs) = readVal (f + 1) cs := by
  simp only [readVal]
  rw [dropWs_append_ws ws cs h]

theorem pv_null (f : Nat) (r : List Char) :
    readVal (f + 1) ('n' :: 'u' :: 'l' :: 'l' :: r) = some (.null, r) := rfl

theorem pv_true (f : Nat) (r : List Char) :
    readVal (f + 1) ('t' :: 'r' :: 'u' :: 'e' :: r) = some (.bool true, r) := rfl

theorem pv_false (f : Nat) (r : List Char) :
    readVal (f + 1) ('f' :: 'a' :: 'l' :: 's' :: 'e' :: r) = some (.bool false, r) := rfl

theorem pv_quote (f : Nat) (r : List Char) :
    readVal (f + 1) ('"' :: r) =
      (match readStrBody r with
       | some p => some (.str (String.mk p.1), p.2)
       | none => none) := rfl

theorem pv_minus (f : Nat) (r : List Char) :
    readVal (f + 1) ('-' :: r) =
      (match readNatTok r with
       | some p => some (.num (-(Int.ofNat p.1)), p.2)
       | none => none) := rfl

theorem pv_arr (f : Nat) (r : List Char) :
    readVal (f + 1) ('[' :: r) =
      (match dropWs r with
       | [] => none
       | c1 :: t1 =>
         if c1 == ']' then some (.arr [], t1)
         else
           match readItems f (c1 :: t1) with
           | some p => some (.arr p.1, p.2)
           | none => none) := rfl

theorem pv_obj (f : Nat) (r : List Char) :
    readVal (f + 1) ('{' :: r) =
      (match dropWs r with
       | [] => none
       | c1 :: t1 =>
         if c1 == '}' then some (.obj [], t1)
         else
           match readFields f (c1 :: t1) with
           | some p => some (.obj p.1, p.2)
           | none => none) := rfl

theorem pv_digit (f : Nat) (c : Char) (r : List Char) (h : isDigitC c = true) :
    readVal (f + 1) (c :: r) =
      (match readNatTok (c :: r) with
       | some p => some (.num (Int.ofNat p.1), p.2)
       | none => none) := by
  simp only [readVal]
  rw [dropWs_cons_not c r (digit_not_ws c h)]
  dsimp only
  simp [h]

/-! ## The parser inverts the serializer -/

mutual

theorem pv_ser (j : Json) (fuel ind : Nat) (ws rest cs : List Char)
    (hfuel : jsize j ≤ fuel) (hws : onlyWs ws = true) (hrest : restOk rest = true)
    (hcs : cs = ws ++ serVal ind j ++ rest) :
    readVal fuel cs = some (j, rest) := by
  obtain ⟨f, rfl⟩ : ∃ f, fuel = f + 1 := ⟨fuel - 1, by have := jsize_pos j; omega⟩
  subst hcs
  rw [List.append_assoc, pv_ws f ws _ hws]
  cases j with
  | null => exact pv_null f rest
  | bool b =>
    cases b with
    | true => exact pv_true f rest
    | false => exact pv_false f rest
  | num n =>
    cases n with
    | ofNat m =>
      show readVal (f + 1) (natToChars m ++ rest) = _
      cases hm : natToChars m with
      | nil => exact absurd hm (natToChars_ne_nil m)
      | cons c t =>
        have hc : isDigitC c = true := by
          apply natToChars_digits m; rw [hm]; exact List.mem_cons_self c t
        rw [List.cons_append, pv_digit f c (t ++ rest) hc, ← List.cons_append, ← hm,
          readNatTok_natToChars m rest hrest]
    | negSucc m =>
      show readVal (f + 1) ('-' :: (natToChars (m + 1) ++ rest)) = _
      rw [pv_minus, readNatTok_natToChars (m + 1) rest hrest]
      exact rfl
  | str s =>
    simp only [serVal, serStr, List.cons_append, List.append_assoc, List.singleton_append, List.nil_append]
    rw [pv_quote, readStrBody_escape s.data rest]
  | arr l =>
    cases l with
    | nil =>
      show readVal (f + 1) ('[' :: ']' :: rest) = _
      rw [pv_arr]
      exact rfl
    | cons x xs =>
      have hfl : lsize (x :: xs) ≤ f := by simp only [jsize] at hfuel; omega
      simp only [serVal, List.cons_append, List.append_assoc, List.singleton_append, List.nil_append]
      rw [pv_arr]
      rw [dropWs_append_ws _ _ (onlyWs_wsNl (ind + 2))]
      obtain ⟨c, t, hct, hws2, hbr, hbc⟩ := serVal_head (ind + 2) x
      rw [hct, List.cons_append, dropWs_cons_not c _ hws2]
      dsimp only
      rw [hbr]
      simp only [Bool.false_eq_true, if_false]
      rw [← List.cons_append, ← hct]
      rw [pitems_ser x xs f (ind + 2) [] (wsNl ind) rest _ hfl rfl (onlyWs_wsNl ind)
        (by simp [List.append_assoc])]
  | obj l =>
    cases l with
    | nil =>
      show readVal (f + 1) ('{' :: '}' :: rest) = _
      rw [pv_obj]
      exact rfl
    | cons fld fs =>
      obtain ⟨k, v⟩ := fld
      have hfo : osize ((k, v) :: fs) ≤ f := by simp only [jsize] at hfuel; omega
      simp only [serVal, List.cons_append, List.append_assoc, List.singleton_append, List.nil_append]
      rw [pv_obj]
      rw [dropWs_append_ws _ _ (onlyWs_wsNl (ind + 2))]
      simp only [serStr, List.cons_append, List.append_assoc, List.singleton_append, List.nil_append]
      rw [dropWs_cons_not '"' _ rfl]
      dsimp only
      rw [show (('"' : Char) == '}') = false from rfl]
      simp only [Bool.false_eq_true, if_false]
      rw [pfields_ser k v fs f (ind + 2) [] (wsNl ind) rest _ hfo rfl (onlyWs_wsNl ind)
        (by simp [serStr, List.cons_append, List.append_assoc, List.singleton_append, List.nil_append])]
termination_by fuel
decreasing_by all_goals omega

theorem pitems_ser (j : Json) (js : List Json) (fuel ind : Nat) (ws cl rest cs : List Char)
    (hfuel : lsize (j :: js) ≤ fuel) (hws : onlyWs ws = true) (hcl : onlyWs cl = true)
    (hcs : cs = ws ++ serVal ind j ++ serArrRest ind js ++ cl ++ ']' :: rest) :
    readItems fuel cs = some (j :: js, rest) := by
  obtain ⟨f, rfl⟩ : ∃ f, fuel = f + 1 := ⟨fuel - 1, by have := lsize_pos (j :: js); omega⟩
  subst hcs
  have hj : jsize j ≤ f := by
    simp only [lsize] at hfuel; have := lsize_pos js; omega
  have hro : restOk (serArrRest ind js ++ cl ++ ']' :: rest) = true := by
    cases js with
    | nil =>
      simp only [serArrRest, List.nil_append]
      exact restOk_ws_append cl (']' :: rest) hcl rfl
    | cons j2 js2 => rfl
  simp only [readItems]
  rw [pv_ser j f ind ws (serArrRest ind js ++ cl ++ ']' :: rest) _ hj hws hro
    (by simp [List.append_assoc])]
  dsimp only
  cases js with
  | nil =>
    simp only [serArrRest, List.nil_append]
    rw [dropWs_append_ws cl _ hcl, dropWs_cons_not ']' _ rfl]
    exact rfl
  | cons j2 js2 =>
    have hf2 : lsize (j2 :: js2) ≤ f := by
      simp only [lsize] at hfuel ⊢; have := jsize_pos j; omega
    simp only [serArrRest, List.cons_append, List.append_assoc]
    rw [dropWs_cons_not ',' _ rfl]
    dsimp only
    rw [show ((',' : Char) == ',') = true from rfl]
    simp only [if_true]
    rw [pitems_ser j2 js2 f ind (wsNl ind) cl rest _ hf2 (onlyWs_wsNl ind) hcl
      (by simp [List.append_assoc])]
termination_by fuel
decreasing_by all_goals omega

theorem pfields_ser (k : String) (v : Json) (fs : List (String × Json)) (fuel ind : Nat)
    (ws cl rest cs : List Char)
    (hfuel : osize ((k, v) :: fs) ≤ fuel) (hws : onlyWs ws = true) (hcl : onlyWs cl = true)
    (hcs : cs = ws ++ serStr k ++ ':' :: ' ' :: serVal ind v
      ++ serObjRest ind fs ++ cl ++ '}' :: rest) :
    readFields fuel cs = some ((k, v) :: fs, rest) := by
  obtain ⟨f, rfl⟩ : ∃ f, fuel = f + 1 :=
    ⟨fuel - 1, by have := osize_pos ((k, v) :: fs); omega⟩
  subst hcs
  have hv : jsize v ≤ f := by
    simp only [osize] at hfuel; have := osize_pos fs; omega
  have hro : restOk (serObjRest ind fs ++ cl ++ '}' :: rest) = true := by
    cases fs with
    | nil =>
      simp only [serObjRest, List.nil_append]
      exact restOk_ws_append cl ('}' :: rest) hcl rfl
    | cons f2 fs2 => obtain ⟨k2, v2⟩ := f2; rfl
  simp only [readFields]
  simp only [serStr, List.cons_append, List.append_assoc, List.singleton_append, List.nil_append]
  rw [dropWs_append_ws ws _ hws, dropWs_cons_not '"' _ rfl]
  dsimp only
  rw [show (('"' : Char) == '"') = true from rfl]
  simp only [if_true]
  rw [readStrBody_escape k.data _]
  dsimp only
  rw [dropWs_cons_not ':' _ rfl]
  dsimp only
  rw [show ((':' : Char) == ':') = true from rfl]
  simp only [if_true]
  rw [pv_ser v f ind [' '] (serObjRest ind fs ++ cl ++ '}' :: rest) _ hv rfl hro
    (by simp [List.append_assoc])]
  dsimp only
  cases fs with
  | nil =>
    simp only [serObjRest, List.nil_append]
    rw [dropWs_append_ws cl _ hcl, dropWs_cons_not '}' _ rfl]
    exact rfl
  | cons f2 fs2 =>
    obtain ⟨k2, v2⟩ := f2
    have hf2 : osize ((k2, v2) :: fs2) ≤ f := by
      simp only [osize] at hfuel ⊢; have := jsize_pos v; omega
    simp only [serObjRest, List.cons_append, List.append_assoc]
    rw [dropWs_cons_not ',' _ rfl]
    dsimp only
    rw [show ((',' : Char) == ',') = true from rfl]
    simp only [if_true]
    rw [pfields_ser k2 v2 fs2 f ind (wsNl ind) cl rest _ hf2 (onlyWs_wsNl ind) hcl
      (by simp [serStr, List.cons_append, List.append_assoc, List.singleton_append, List.nil_append])]
termination_by fuel
decreasing_by all_goals omega

end

/-! ## Fuel bound: the input length dominates the node count -/

mutual

theorem jsize_le (ind : Nat) (j : Json) : jsize j ≤ (serVal ind j).length + 1 := by
  cases j with
  | null => simp [jsize, serVal]
  | bool b => cases b <;> simp [jsize, serVal]
  | num n => simp only [jsize]; omega
  | str s => simp only [jsize]; omega
  | arr l =>
    cases l with
    | nil => simp [jsize, lsize, serVal]
    | cons x xs =>
      have h1 := jsize_le (ind + 2) x
      have h2 := lsize_le (ind + 2) xs
      simp only [jsize, lsize, serVal, List.length_cons, List.length_append,
        wsNl, spaces, List.length_replicate, List.length_singleton] at *
      omega
  | obj l =>
    cases l with
    | nil => simp [jsize, osize, serVal]
    | cons fld fs =>
      obtain ⟨k, v⟩ := fld
      have h1 := jsize_le (ind + 2) v
      have h2 := osize_le (ind + 2) fs
      simp only [jsize, osize, serVal, serStr, List.length_cons, List.length_append,
        wsNl, spaces, List.length_replicate, List.length_singleton] at *
      omega
termination_by jsize j
decreasing_by all_goals (simp [jsize, lsize, osize]; try omega)

theorem lsize_le (ind : Nat) (l : List Json) :
    lsize l ≤ (serArrRest ind l).length + 1 := by
  cases l with
  | nil => simp [lsize, serArrRest]
  | cons x xs =>
    have h1 := jsize_le ind x
    have h2 := lsize_le ind xs
    simp only [lsize, serArrRest, List.length_cons, List.length_append,
      wsNl, spaces, List.length_replicate] at *
    omega
termination_by lsize l
decreasing_by all_goals (simp [jsize, lsize, osize]; try omega)

theorem osize_le (ind : Nat) (l : List (String × Json)) :
    osize l ≤ (serObjRest ind l).length + 1 := by
  cases l with
  | nil => simp [osize, serObjRest]
  | cons fld fs =>
    obtain ⟨k, v⟩ := fld
    have h1 := jsize_le ind v
    have h2 := osize_le ind fs
    simp only [osize, serObjRest, serStr, List.length_cons, List.length_append,
      wsNl, spaces, List.length_replicate] at *
    omega
termination_by osize l
decreasing_by all_goals (simp [jsize, lsize, osize]; try omega)

end

/-! ## `json.loads` inverts `json.dumps` -/

theorem loads_dumps (j : Json) : json_loads (json_dumps j) = some j := by
  have hlen := jsize_le 0 j
  unfold json_loads json_dumps
  rw [show (String.mk (serVal 0 j)).data = serVal 0 j from rfl]
  rw [pv_ser j ((serVal 0 j).length + 1) 0 [] [] (serVal 0 j) (by omega) rfl rfl (by simp)]
  rfl

/-! # Claims -/

/-- Claim C1: for every 200-status response whose `organic_results` is
non-empty (line 31's truthiness check) and whose first entry carries
`rich_snippet.top.extensions` as a list, if joining the extensions with
single spaces succeeds and yields a string containing `°F`, then
`get_weather_serp` returns exactly that space-joined string.  The
hypotheses state, through the embedded Python operations, exactly the
checks of lines 31-39. -/
theorem extensions_path_returns_join (body : String)
    (result_json org fr rs top : Json) (elems : List Json) (ss : List String)
    (hparse : json_loads body = some result_json)
    (h1 : pyIn "organic_results" result_json = .ok true)
    (h2 : getKey "organic_results" result_json = .ok org)
    (h3 : truthy org = true)
    (h4 : index0 org = .ok fr)
    (h5 : pyIn "rich_snippet" fr = .ok true)
    (h6 : getKey "rich_snippet" fr = .ok rs)
    (h7 : pyIn "top" rs = .ok true)
    (h8 : getKey "top" rs = .ok top)
    (h9 : pyIn "extensions" top = .ok true)
    (h10 : getKey "extensions" top = .ok (.arr elems))
    (h11 : joinStrs elems = some ss)
    (h12 : strContains (spaceJoin ss) fahr = true) :
    get_weather_serp ⟨200, body⟩ = .ok (.str (spaceJoin ss)) := by
  simp only [get_weather_serp, hparse, extract, afterFirst, richPath,
    h1, h2, h3, h4, h5, h6, h7, h8, h9, h10, h11, h12, if_true, if_pos]

/-- Witness for C1: the spec's example — extensions
`["72°F", "Partly cloudy"]` yield exactly `"72°F Partly cloudy"`. -/
theorem extensions_path_returns_join_witness :
    get_weather_serp ⟨200, json_dumps (.obj [("organic_results", .arr [.obj
      [("rich_snippet", .obj [("top", .obj [("extensions",
        .arr [.str "72°F", .str "Partly cloudy"])])])]])])⟩ =
      .ok (.str "72°F Partly cloudy") :=
  extensions_path_returns_join _ _ _ _ _ _ _ ["72°F", "Partly cloudy"]
    (loads_dumps _) rfl rfl rfl rfl rfl rfl rfl rfl rfl rfl rfl rfl

/-- Claim C2: for every 200-status response whose first organic result
yields no usable extensions (`richPath` falls through: rich snippet or
top or extensions absent, extensions not a list, or the joined string
lacking `°F`) but has a `"snippet"` string containing `°F`,
`get_weather_serp` returns exactly that snippet string, unmodified. -/
theorem snippet_path_returns_snippet (body : String)
    (result_json org fr : Json) (sn : String)
    (hparse : json_loads body = some result_json)
    (h1 : pyIn "organic_results" result_json = .ok true)
    (h2 : getKey "organic_results" result_json = .ok org)
    (h3 : truthy org = true)
    (h4 : index0 org = .ok fr)
    (h5 : richPath fr = .ok none)
    (h6 : pyIn "snippet" fr = .ok true)
    (h7 : getKey "snippet" fr = .ok (.str sn))
    (h8 : strContains sn fahr = true) :
    get_weather_serp ⟨200, body⟩ = .ok (.str sn) := by
  simp only [get_weather_serp, hparse, extract, afterFirst, snipPath,
    h1, h2, h3, h4, h5, h6, h7, if_true]
  simp only [pyIn, h8]

/-- Witness for C2: the spec's example — only
`organic_results[0].snippet = "Currently 68°F and clear."` is present,
and the output is exactly that string. -/
theorem snippet_path_returns_snippet_witness :
    get_weather_serp ⟨200, json_dumps (.obj [("organic_results",
      .arr [.obj [("snippet", .str "Currently 68°F and clear.")]])])⟩ =
      .ok (.str "Currently 68°F and clear.") :=
  snippet_path_returns_snippet _ _ _ _ _
    (loads_dumps _) rfl rfl rfl rfl rfl rfl rfl rfl

set_option maxRecDepth 40000 in
/-- Counterexample to C3 as stated: extraction is not total over parsed
200-status responses.  On this parsed response (extensions list
`["66°F", 50]`) the extraction raises `TypeError` instead of producing
a result. -/
theorem extraction_not_total_counterexample :
    get_weather_serp ⟨200, json_dumps (.obj [("organic_results", .arr [.obj
      [("rich_snippet", .obj [("top", .obj [("extensions",
        .arr [.str "66°F", .num 50])])])]])])⟩ = .error "TypeError" := by
  have h := loads_dumps (.obj [("organic_results", .arr [.obj
    [("rich_snippet", .obj [("top", .obj [("extensions",
      .arr [.str "66°F", .num 50])])])]])])
  simp only [get_weather_serp, h]
  rfl

/-- Claim C3 as amended: whenever the extraction returns a value (no
exception), the selection is strictly ordered and never mixes sources —
the value comes from exactly one of the three sources, the extensions
path winning over the snippet path over the raw dump.  (Determinism is
inherent: the extraction is a function of the parsed response.
Totality fails on the counterexample above.) -/
theorem extraction_strict_precedence (result_json v : Json)
    (h : extract result_json = .ok v) :
    (∃ fr t, firstRes result_json = some fr ∧ richPath fr = .ok (some t) ∧
      v = .str t) ∨
    (∃ fr sn, firstRes result_json = some fr ∧ richPath fr = .ok none ∧
      pyIn "snippet" fr = .ok true ∧ getKey "snippet" fr = .ok sn ∧
      pyIn fahr sn = .ok true ∧ v = sn) ∨
    ((firstRes result_json = none ∨
      ∃ fr, firstRes result_json = some fr ∧ richPath fr = .ok none ∧
        (pyIn "snippet" fr = .ok false ∨
          ∃ sn, getKey "snippet" fr = .ok sn ∧ pyIn fahr sn = .ok false)) ∧
      v = .str (json_dumps result_json)) := by
  simp only [extract] at h
  cases hp : pyIn "organic_results" result_json with
  | error e => rw [hp] at h; simp at h
  | ok b =>
    cases b with
    | false =>
      rw [hp] at h; simp at h
      exact Or.inr (Or.inr ⟨Or.inl (by simp [firstRes, hp]), h.symm⟩)
    | true =>
      rw [hp] at h
      dsimp only at h
      cases hg : getKey "organic_results" result_json with
      | error e => rw [hg] at h; simp at h
      | ok org =>
        rw [hg] at h
        dsimp only at h
        by_cases ht : truthy org = true
        · rw [if_pos ht] at h
          cases hi : index0 org with
          | error e => rw [hi] at h; simp at h
          | ok fr =>
            rw [hi] at h
            dsimp only at h
            simp only [afterFirst] at h
            have hfr : firstRes result_json = some fr := by
              simp [firstRes, hp, hg, ht, hi]
            cases hr : richPath fr with
            | error e => rw [hr] at h; simp at h
            | ok o =>
              rw [hr] at h
              cases o with
              | some t =>
                simp at h
                exact Or.inl ⟨fr, t, hfr, hr, h.symm⟩
              | none =>
                dsimp only at h
                simp only [snipPath] at h
                cases hs : pyIn "snippet" fr with
                | error e => rw [hs] at h; simp at h
                | ok b2 =>
                  cases b2 with
                  | false =>
                    rw [hs] at h; simp at h
                    exact Or.inr (Or.inr ⟨Or.inr ⟨fr, hfr, hr, Or.inl hs⟩, h.symm⟩)
                  | true =>
                    rw [hs] at h
                    dsimp only at h
                    cases hg2 : getKey "snippet" fr with
                    | error e => rw [hg2] at h; simp at h
                    | ok sn =>
                      rw [hg2] at h
                      dsimp only at h
                      cases hf : pyIn fahr sn with
                      | error e => rw [hf] at h; simp at h
                      | ok b3 =>
                        cases b3 with
                        | true =>
                          rw [hf] at h; simp at h
                          exact Or.inr (Or.inl ⟨fr, sn, hfr, hr, hs, hg2, hf, h.symm⟩)
                        | false =>
                          rw [hf] at h; simp at h
                          exact Or.inr (Or.inr
                            ⟨Or.inr ⟨fr, hfr, hr, Or.inr ⟨sn, hg2, hf⟩⟩, h.symm⟩)
        · rw [if_neg ht] at h
          simp at h
          refine Or.inr (Or.inr ⟨Or.inl ?_, h.symm⟩)
          simp [firstRes, hp, hg, ht]

/-- Witness for the amended C3, at the empty-object response, whose
result is the dump: the third (last-resort) disjunct holds. -/
theorem extraction_strict_precedence_witness :
    (∃ fr t, firstRes (Json.obj []) = some fr ∧ richPath fr = .ok (some t) ∧
      Json.str (json_dumps (Json.obj [])) = .str t) ∨
    (∃ fr sn, firstRes (Json.obj []) = some fr ∧ richPath fr = .ok none ∧
      pyIn "snippet" fr = .ok true ∧ getKey "snippet" fr = .ok sn ∧
      pyIn fahr sn = .ok true ∧ Json.str (json_dumps (Json.obj [])) = sn) ∨
    ((firstRes (Json.obj []) = none ∨
      ∃ fr, firstRes (Json.obj []) = some fr ∧ richPath fr = .ok none ∧
        (pyIn "snippet" fr = .ok false ∨
          ∃ sn, getKey "snippet" fr = .ok sn ∧ pyIn fahr sn = .ok false)) ∧
      Json.str (json_dumps (Json.obj [])) = .str (json_dumps (Json.obj []))) :=
  extraction_strict_precedence (Json.obj []) (.str (json_dumps (Json.obj []))) rfl

/-- Claim C4: for every non-200 status code the result is the error
text embedding the decimal status code (so it contains the code as a
substring), for every body — the body is never parsed, as the result is
body-independent; and for 503 the result is exactly the spec's string. -/
theorem non200_returns_status_error (code : Nat) (body : String)
    (h : code ≠ 200) :
    get_weather_serp ⟨code, body⟩ = .ok (.str (errMsg code)) ∧
      strContains (errMsg code) (Nat.repr code) = true ∧
      errMsg 503 = "Error: Unable to fetch data from SERP API, status code: 503" := by
  refine ⟨?_, ?_, rfl⟩
  · simp only [get_weather_serp]
    rw [if_neg h]
  · exact strContains_append
      "Error: Unable to fetch data from SERP API, status code: " (Nat.repr code)

/-- Witness for C4 at status 503 with an arbitrary body. -/
theorem non200_returns_status_error_witness :
    get_weather_serp ⟨503, "service unavailable"⟩ = .ok (.str (errMsg 503)) ∧
      strContains (errMsg 503) (Nat.repr 503) = true ∧
      errMsg 503 = "Error: Unable to fetch data from SERP API, status code: 503" :=
  non200_returns_status_error 503 "service unavailable" (by decide)

/-- Counterexample to C5 as stated: a 200-status reply whose body fails
to parse is not converted into a descriptive text result — line 29 has
no try/except, so `response.json()`'s `JSONDecodeError` propagates as
an uncaught exception. -/
theorem parse_failure_raises_counterexample :
    get_weather_serp ⟨200, "oops"⟩ = .error "JSONDecodeError" := rfl

/-- Claim C5 as amended: for every 200-status reply whose body fails to
parse, the parse failure propagates as an exception (`JSONDecodeError`)
rather than being returned as text. -/
theorem parse_failure_propagates_exception (body : String)
    (h : json_loads body = none) :
    get_weather_serp ⟨200, body⟩ = .error "JSONDecodeError" := by
  simp only [get_weather_serp, h]
  simp

/-- Witness for the amended C5 at a concrete malformed body. -/
theorem parse_failure_propagates_exception_witness :
    json_loads "not valid json" = none ∧
      get_weather_serp ⟨200, "not valid json"⟩ = .error "JSONDecodeError" :=
  ⟨rfl, parse_failure_propagates_exception "not valid json" rfl⟩

/-- Claim C6: for every parsed 200-status response on which neither the
extensions path nor the snippet path applies (organic results absent or
falsy, or the first result's rich-snippet branch falls through and its
snippet check fails), `get_weather_serp` returns the pretty-printed
serialization of the full parsed response, and that serialization
round-trips: parsing it back yields the original structure. -/
theorem fallback_dump_roundtrip (body : String) (result_json : Json)
    (hparse : json_loads body = some result_json)
    (hfall : pyIn "organic_results" result_json = .ok false ∨
      (∃ org, pyIn "organic_results" result_json = .ok true ∧
        getKey "organic_results" result_json = .ok org ∧ truthy org = false) ∨
      (∃ org fr, pyIn "organic_results" result_json = .ok true ∧
        getKey "organic_results" result_json = .ok org ∧ truthy org = true ∧
        index0 org = .ok fr ∧ richPath fr = .ok none ∧
        (pyIn "snippet" fr = .ok false ∨
          ∃ sn, pyIn "snippet" fr = .ok true ∧ getKey "snippet" fr = .ok sn ∧
            pyIn fahr sn = .ok false))) :
    get_weather_serp ⟨200, body⟩ = .ok (.str (json_dumps result_json)) ∧
      json_loads (json_dumps result_json) = some result_json := by
  have hgw : get_weather_serp ⟨200, body⟩ = extract result_json := by
    simp only [get_weather_serp, hparse]
    simp
  refine ⟨?_, loads_dumps result_json⟩
  rw [hgw]
  rcases hfall with h1 | ⟨org, h1, h2, h3⟩ | ⟨org, fr, h1, h2, h3, h4, h5, hsn⟩
  · simp only [extract, h1]
  · simp only [extract, h1, h2, h3, Bool.false_eq_true, if_false]
  · rcases hsn with h6 | ⟨sn, h6, h7, h8⟩
    · simp only [extract, afterFirst, snipPath, h1, h2, h3, h4, h5, h6, if_true]
    · simp only [extract, afterFirst, snipPath, h1, h2, h3, h4, h5, h6, h7, h8,
        if_true]

/-- Witness for C6 at the empty-object response: the result is its own
dump, and the dump parses back to the empty object. -/
theorem fallback_dump_roundtrip_witness :
    get_weather_serp ⟨200, json_dumps (Json.obj [])⟩ =
        .ok (.str (json_dumps (Json.obj []))) ∧
      json_loads (json_dumps (Json.obj [])) = some (Json.obj []) :=
  fallback_dump_roundtrip (json_dumps (Json.obj [])) (Json.obj [])
    (loads_dumps _) (Or.inl rfl)

/-- Claim C7 (code bug): the claim — and the source's own `-> str`
annotation — say every returned value is a non-empty string, but the
snippet branch (line 45) returns `first_result["snippet"]` unchanged:
when that field holds the list `["°F"]`, the membership test
`"°F" in snippet` succeeds and the raw list is returned, not a string. -/
theorem snippet_list_returned_nonstring :
    get_weather_serp ⟨200, json_dumps (.obj [("organic_results",
      .arr [.obj [("snippet", .arr [.str "°F"])]])])⟩ =
      .ok (.arr [.str "°F"]) := by
  have h := loads_dumps (.obj [("organic_results",
    .arr [.obj [("snippet", .arr [.str "°F"])]])])
  simp only [get_weather_serp, h]
  rfl

/-- Claim C8: when the entered text is empty at the moment the trigger
button is pressed, `agent.run` is never invoked — the handler of lines
97-99 issues no call. -/
theorem empty_query_issues_no_call (button_pressed : Bool)
    (agentRun : String → String) :
    mainRuns button_pressed "" agentRun = none := by
  simp [mainRuns]

set_option maxRecDepth 40000 in
/-- Claim C9: the extensions existence check (line 36) verifies only
`isinstance(extensions, list)`, not that the elements are strings: on
this 200-status response whose extensions list holds the number `100`,
the space-join of line 37 raises `TypeError`, and no string is
returned. -/
theorem nonstring_extensions_raise_type_error :
    get_weather_serp ⟨200, json_dumps (.obj [("organic_results", .arr [.obj
      [("rich_snippet", .obj [("top", .obj [("extensions",
        .arr [.str "72°F", .num 100])])])]])])⟩ = .error "TypeError" := by
  have h := loads_dumps (.obj [("organic_results", .arr [.obj
    [("rich_snippet", .obj [("top", .obj [("extensions",
      .arr [.str "72°F", .num 100])])])]])])
  simp only [get_weather_serp, h]
  rfl

/-- Claim C10: when `rich_snippet.top.extensions` is present and equal
to the empty list, the extraction behaves exactly as if extensions were
absent: the join yields the empty string (which cannot contain `°F`),
the rich-snippet branch falls through (`richPath` yields no result),
and the extraction continues with the snippet check and then the
raw-dump fallback (`snipPath`). -/
theorem empty_extensions_fall_through (result_json org fr rs top : Json)
    (h1 : pyIn "organic_results" result_json = .ok true)
    (h2 : getKey "organic_results" result_json = .ok org)
    (h3 : truthy org = true)
    (h4 : index0 org = .ok fr)
    (h5 : pyIn "rich_snippet" fr = .ok true)
    (h6 : getKey "rich_snippet" fr = .ok rs)
    (h7 : pyIn "top" rs = .ok true)
    (h8 : getKey "top" rs = .ok top)
    (h9 : pyIn "extensions" top = .ok true)
    (h10 : getKey "extensions" top = .ok (.arr [])) :
    joinStrs [] = some [] ∧ spaceJoin [] = "" ∧ strContains "" fahr = false ∧
      richPath fr = .ok none ∧ extract result_json = snipPath fr result_json := by
  have hrich : richPath fr = .ok none := by
    simp only [richPath, h5, h6, h7, h8, h9, h10, joinStrs]
    rfl
  refine ⟨rfl, rfl, rfl, hrich, ?_⟩
  simp only [extract, afterFirst, h1, h2, h3, h4, hrich, if_true]

/-- Witness for C10 at a concrete response whose first organic result
carries an empty extensions list. -/
theorem empty_extensions_fall_through_witness :
    joinStrs [] = some [] ∧ spaceJoin [] = "" ∧ strContains "" fahr = false ∧
      richPath (.obj [("rich_snippet", .obj [("top",
        .obj [("extensions", .arr [])])])]) = .ok none ∧
      extract (.obj [("organic_results", .arr [.obj [("rich_snippet", .obj
          [("top", .obj [("extensions", .arr [])])])]])]) =
        snipPath (.obj [("rich_snippet", .obj [("top",
            .obj [("extensions", .arr [])])])])
          (.obj [("organic_results", .arr [.obj [("rich_snippet", .obj
            [("top", .obj [("extensions", .arr [])])])]])]) :=
  empty_extensions_fall_through _ _ _ _ _ rfl rfl rfl rfl rfl rfl rfl rfl rfl rfl
